import Mathlib

/-!
Verification of the WhatsApp task-assistant backend core: the webhook
ingress (`whatsapp_receive`), the queue-consuming worker
(`whatsapp_worker/main.py` and its processors), the LLM orchestration layer
(`llm/main.py`), and the reminder scheduler (`whatsapp_worker/scheduler.py`).
Each definition is a shallow embedding of the corresponding Python function;
external HTTP calls, the LLM, and the transcription provider are modelled as
oracle parameters describing the outcome of each call.
-/

namespace A2

/-! ## Tool-name sanitizer (`llm/main.py`, `sanitize_tool_calls`)

The Python code strips corrupted suffixes from tool names with
`re.sub(r'<\|[^|]+\|>[a-z_]+', '', name)`.  We embed the regex
substitution on `List Char`: at each position, the engine tries to match
`<`, `|`, a nonempty run of non-`|` characters, `|>`, then a nonempty run
of `[a-z_]` characters (both runs greedy; backtracking over `[^|]+`
collapses to "up to the next `|`" because the class excludes `|`).  All
non-overlapping matches are deleted, scanning left to right. -/

/-- Character class `[a-z_]` of the corruption pattern. -/
def isToolSuffixChar (c : Char) : Bool := c.isLower || c = '_'

/-- Attempt to match the corruption regex `<\|[^|]+\|>[a-z_]+` at the head
of the list; on success return the remainder after the match. -/
def matchCorruption (cs : List Char) : Option (List Char) :=
  match cs with
  | c1 :: c2 :: rest =>
    if c1 = '<' && c2 = '|' then
      if (rest.takeWhile (fun c => c ≠ '|')).isEmpty then none
      else
        match rest.drop (rest.takeWhile (fun c => c ≠ '|')).length with
        | d1 :: d2 :: rest2 =>
          if d1 = '|' && d2 = '>' then
            if (rest2.takeWhile isToolSuffixChar).isEmpty then none
            else some (rest2.drop (rest2.takeWhile isToolSuffixChar).length)
          else none
        | _ => none
    else none
  | _ => none

theorem matchCorruption_length {cs r : List Char}
    (h : matchCorruption cs = some r) : r.length < cs.length := by
  unfold matchCorruption at h
  split at h
  · split at h
    · split at h
      · simp at h
      · split at h
        · split at h
          · split at h
            · simp at h
            · rename_i rest _ _ d1 d2 rest2 heq _ _
              injection h with h
              subst h
              have h1 := congrArg List.length heq
              simp only [List.length_drop, List.length_cons] at h1
              have h2 : (rest2.drop
                  (rest2.takeWhile isToolSuffixChar).length).length
                  ≤ rest2.length := by
                simp only [List.length_drop]; omega
              simp only [List.length_cons]
              omega
          · simp at h
        · simp at h
    · simp at h
  · simp at h

/-- The regex substitution `re.sub(corruption_pattern, '', name)`: delete all
non-overlapping matches, scanning left to right. -/
def sanitizeToolName (cs : List Char) : List Char :=
  match h : matchCorruption cs with
  | some r => sanitizeToolName r
  | none =>
    match cs with
    | [] => []
    | c :: rest => c :: sanitizeToolName rest
termination_by cs.length
decreasing_by
  · exact matchCorruption_length h
  · simp [List.length_cons]

theorem sanitizeToolName_match {cs r : List Char}
    (h : matchCorruption cs = some r) :
    sanitizeToolName cs = sanitizeToolName r := by
  rw [sanitizeToolName]
  split
  · rename_i r' heq
    rw [h] at heq
    cases heq
    rfl
  · rename_i heq
    rw [h] at heq
    cases heq

theorem sanitizeToolName_nomatch_cons {c : Char} {rest : List Char}
    (h : matchCorruption (c :: rest) = none) :
    sanitizeToolName (c :: rest) = c :: sanitizeToolName rest := by
  rw [sanitizeToolName]
  split
  · rename_i r' heq
    rw [h] at heq
    cases heq
  · rfl

theorem sanitizeToolName_nil : sanitizeToolName [] = [] := by
  rw [sanitizeToolName]
  split
  · rename_i heq
    simp [matchCorruption] at heq
  · rfl

/-- The corruption pattern needs a literal `<` at its start, so a match can
only begin at a `<` character. -/
theorem matchCorruption_head_ne {c : Char} (l : List Char) (h : c ≠ '<') :
    matchCorruption (c :: l) = none := by
  cases l with
  | nil => rfl
  | cons d t => simp [matchCorruption, h]

theorem takeWhile_append_stop {α : Type} {p : α → Bool} {xs : List α}
    {y : α} {ys : List α} (hx : ∀ x ∈ xs, p x = true) (hy : p y = false) :
    (xs ++ y :: ys).takeWhile p = xs := by
  induction xs with
  | nil => simp [List.takeWhile_cons, hy]
  | cons a t ih =>
    have ha : p a = true := hx a (by simp)
    simp only [List.cons_append, List.takeWhile_cons, ha, if_true]
    rw [ih (fun x hx2 => hx x (by simp [hx2]))]

theorem takeWhile_all {α : Type} {p : α → Bool} {xs : List α}
    (hx : ∀ x ∈ xs, p x = true) : xs.takeWhile p = xs := by
  induction xs with
  | nil => rfl
  | cons a t ih =>
    have ha : p a = true := hx a (by simp)
    simp only [List.takeWhile_cons, ha, if_true]
    rw [ih (fun x hx2 => hx x (by simp [hx2]))]

/-- A corrupted suffix of the shape the spec describes: a delimiter-bracketed
token `<|B|>` followed by a run `W` of `[a-z_]` characters, as in
`<|channel|>commentary`. -/
def corruptedSuffix (B W : List Char) : List Char :=
  '<' :: '|' :: (B ++ '|' :: '>' :: W)

theorem matchCorruption_corrupt {B W : List Char} (hB : B ≠ [])
    (hB2 : ∀ ch ∈ B, ch ≠ '|') (hW : W ≠ [])
    (hW2 : ∀ ch ∈ W, isToolSuffixChar ch = true) :
    matchCorruption (corruptedSuffix B W) = some [] := by
  obtain ⟨b, bs, rfl⟩ := List.exists_cons_of_ne_nil hB
  obtain ⟨w, ws, rfl⟩ := List.exists_cons_of_ne_nil hW
  have htake : ((b :: bs) ++ '|' :: '>' :: (w :: ws)).takeWhile
      (fun c => decide (c ≠ '|')) = b :: bs := by
    refine takeWhile_append_stop (fun x hx => ?_) (by simp)
    simp [hB2 x hx]
  have htake2 : (w :: ws).takeWhile isToolSuffixChar = w :: ws :=
    takeWhile_all hW2
  simp only [corruptedSuffix, matchCorruption]
  rw [if_pos (by simp)]
  rw [htake]
  rw [if_neg (by simp)]
  rw [List.drop_left]
  simp [htake2, List.drop_length]

/-- Sanitizing a name in which the pattern matches nowhere is the identity. -/
theorem sanitizeToolName_of_no_match {n : List Char}
    (h : ∀ s, s <:+ n → matchCorruption s = none) :
    sanitizeToolName n = n := by
  induction n with
  | nil => exact sanitizeToolName_nil
  | cons c rest ih =>
    rw [sanitizeToolName_nomatch_cons (h _ (List.suffix_refl _))]
    rw [ih (fun s hs => h s (hs.trans (List.suffix_cons c rest)))]

/-- A name without `<` contains no match of the pattern at any position. -/
theorem no_match_of_no_langle {n : List Char} (h : ∀ ch ∈ n, ch ≠ '<') :
    ∀ s, s <:+ n → matchCorruption s = none := by
  intro s hs
  cases s with
  | nil => rfl
  | cons c t =>
    exact matchCorruption_head_ne t (h c (hs.subset (List.mem_cons_self c t)))

/-- Stripping a corrupted suffix from a clean (no `<`) name yields exactly
the clean name. -/
theorem sanitizeToolName_strip {c B W : List Char}
    (hc : ∀ ch ∈ c, ch ≠ '<') (hB : B ≠ []) (hB2 : ∀ ch ∈ B, ch ≠ '|')
    (hW : W ≠ []) (hW2 : ∀ ch ∈ W, isToolSuffixChar ch = true) :
    sanitizeToolName (c ++ corruptedSuffix B W) = c := by
  induction c with
  | nil =>
    rw [List.nil_append,
      sanitizeToolName_match (matchCorruption_corrupt hB hB2 hW hW2),
      sanitizeToolName_nil]
  | cons ch c2 ih =>
    have hne : ch ≠ '<' := hc ch (by simp)
    rw [List.cons_append,
      sanitizeToolName_nomatch_cons (matchCorruption_head_ne _ hne)]
    rw [ih (fun x hx => hc x (by simp [hx]))]

/-! ## LLM retry loop (`llm/main.py`, `chat_with_mcp`)

The Python retry loop runs `for attempt in range(max_retries + 1)`; on an
exception whose lowercased message contains one of three keyword substrings
and with `attempt < max_retries` it sleeps `0.5 * (attempt + 1)` seconds and
retries, otherwise it re-raises.  Each LLM invocation's outcome is an oracle
`outcome : Nat → LLMCallResult` indexed by the attempt number. -/

/-- Outcome of one `client.responses.create(**kwargs)` invocation: either a
response from which a text was extracted, or a raised exception message. -/
inductive LLMCallResult where
  | success (text : String)
  | failure (msg : List Char)

/-- The three transient tool-validation keywords of `chat_with_mcp`. -/
def toolErrorKeywords : List (List Char) :=
  [String.toList "tool call validation failed",
   String.toList "tool_use_failed",
   String.toList "invalid_request_error"]

/-- The check `any(keyword in error_msg.lower() for keyword in [...])`. -/
def isToolError (msg : List Char) : Bool :=
  toolErrorKeywords.any (fun k => decide (k <:+: msg.map Char.toLower))

/-- Observable outcome of the retry loop: how many LLM invocations ran, the
backoff sleeps between them (in units of 0.5 seconds, so entry `k` means a
sleep of `0.5 * k` seconds), and the final result (`Except.error` means the
exception propagated to the caller). -/
structure RetryTrace where
  invocations : Nat
  backoffs : List Nat
  result : Except (List Char) String

/-- The loop body of `chat_with_mcp`, from attempt index `attempt` on. -/
def chatGo (outcome : Nat → LLMCallResult) (maxRetries attempt : Nat) :
    RetryTrace :=
  match outcome attempt with
  | .success t => ⟨1, [], .ok t⟩
  | .failure e =>
    if h : isToolError e = true ∧ attempt < maxRetries then
      let rest := chatGo outcome maxRetries (attempt + 1)
      ⟨rest.invocations + 1, (attempt + 1) :: rest.backoffs, rest.result⟩
    else ⟨1, [], .error e⟩
termination_by maxRetries - attempt
decreasing_by omega

/-- `chat_with_mcp`: run the retry loop from attempt 0. -/
def chatWithMcp (outcome : Nat → LLMCallResult) (maxRetries : Nat) :
    RetryTrace :=
  chatGo outcome maxRetries 0

theorem chatGo_allFail (outcome : Nat → LLMCallResult) (mr : Nat)
    (e : Nat → List Char) (h1 : ∀ i, outcome i = .failure (e i))
    (h2 : ∀ i, isToolError (e i) = true) :
    ∀ k a, mr - a = k → a ≤ mr →
      chatGo outcome mr a = ⟨k + 1, List.range' (a + 1) k, .error (e mr)⟩ := by
  intro k
  induction k with
  | zero =>
    intro a hk ha
    have haeq : a = mr := by omega
    subst haeq
    rw [chatGo, h1 a]
    simp only []
    rw [dif_neg (by omega)]
    simp [List.range']
  | succ n ih =>
    intro a hk ha
    have hlt : a < mr := by omega
    rw [chatGo, h1 a]
    simp only []
    rw [dif_pos ⟨h2 a, hlt⟩]
    rw [ih (a + 1) (by omega) (by omega)]
    simp [List.range']

theorem chatGo_nontool (outcome : Nat → LLMCallResult) (mr a : Nat)
    (e : List Char) (h1 : outcome a = .failure e)
    (h2 : isToolError e = false) :
    chatGo outcome mr a = ⟨1, [], .error e⟩ := by
  rw [chatGo, h1]
  simp only []
  rw [dif_neg (by simp [h2])]

/-! ## Transcription engine (`whatsapp_worker/processors/audio.py`,
`transcribe_sarvam_audio`)

The realtime REST call and the batch pipeline are external; their outcomes
are oracle values.  `requests.post` + `raise_for_status` can end in: a JSON
response (`rtOk`), an `HTTPError` carrying a status code (`rtHttpErr`) —
the only exception type the realtime `try` catches — or another
`RequestException` such as a timeout or connection error (`rtExn`), which
no handler in `transcribe_sarvam_audio` catches. -/

/-- Python `s.startswith(p)`, written on the character lists so that
concrete instances evaluate. -/
def strStartsWith (s p : String) : Bool :=
  p.toList.isPrefixOf s.toList

/-- Python `s[n:]`, written on the character lists. -/
def strDrop (s : String) (n : Nat) : String :=
  ⟨s.toList.drop n⟩

inductive RtOutcome where
  | rtOk (transcript : String)
  | rtHttpErr (status : Nat) (msg : String)
  | rtExn (msg : String)

/-- Outcome of the batch pipeline (`with tempfile.TemporaryDirectory() ...`):
`noSuccess` = `file_results['successful']` empty with the first failure
message; `noOutputFile` = no `*.json` found; `output` = parsed result JSON
with its optional `transcript` and `text` fields; `batchExn` = any exception
raised inside the batch `try`. -/
inductive BatchOutcome where
  | noSuccess (errMsg : String)
  | noOutputFile
  | output (transcript : Option String) (text : Option String)
  | batchExn (msg : String)

/-- Python `a or b or ""` over two optional string fields (empty string is
falsy). -/
def pyOrFields (a b : Option String) : String :=
  if a.getD "" ≠ "" then a.getD ""
  else if b.getD "" ≠ "" then b.getD "" else ""

/-- `transcribe_sarvam_audio`.  `Except.error` means the function raised
(the exception escaped); `Except.ok` is the returned string. -/
def transcribeSarvamAudio (apiKeyOk : Bool) (rt : RtOutcome)
    (batch : BatchOutcome) : Except String String :=
  if ¬ apiKeyOk then .ok "Error: Transcription service not configured."
  else
    match rt with
    | .rtOk t => .ok t
    | .rtExn m => .error m
    | .rtHttpErr status m =>
      if status ≠ 400 ∧ status ≠ 413 then
        .ok ("Error: Transcription failed - " ++ m)
      else
        match batch with
        | .noSuccess e => .ok ("Error: Batch failure - " ++ e)
        | .noOutputFile => .ok "Error: No output JSON found."
        | .output tr tx => .ok (pyOrFields tr tx)
        | .batchExn e => .ok ("Error: " ++ e)

/-! ## Worker (`whatsapp_worker/main.py` `handle_webhook`,
`processors/apis.py`, `processors/audio.py` `process_audio_sync`)

The backend database behind `server/routes/internals.py` is modelled as the
list of stored messages; each stored message keeps the `whatsapp_id` that
`store_message` always puts into the payload (for both directions).  All
HTTP calls made by the worker are modelled by oracle fields of `WEnv`. -/

/-- A row of the backend `Message` table as written by `store_msg`
(`server/routes/internals.py`): we keep the fields the worker's behaviour
depends on.  `direction = true` is `in`, `false` is `out`. -/
structure StoredMsg where
  userId : Option Nat
  direction : Bool
  text : String
  whatsappId : String
deriving DecidableEq

/-- The backend message store. -/
abbrev Backend := List StoredMsg

/-- `check_msg_exists` (`server/routes/internals.py`): any stored message
whose payload carries this `whatsapp_id`. -/
def checkMsgExists (b : Backend) (waid : String) : Bool :=
  b.any (fun m => m.whatsappId == waid)

/-- Oracle environment for one `handle_webhook` run: outcomes of each
external HTTP call the worker makes. -/
structure WEnv where
  /-- the GET `/internals/idempotency/...` call completes without a
  `RequestException` -/
  idemOk : Bool
  /-- `get_user_details(phone=...)`: the user id found for a phone, `none`
  for a 404 or a request failure -/
  userByPhone : String → Option Nat
  /-- the POST `/internals/message` for the inbound turn succeeds -/
  storeInOk : Bool
  /-- the POST `/internals/message` for the outbound turn succeeds -/
  storeOutOk : Bool
  /-- `generate_llm_response` (catches all its own exceptions) -/
  llmReply : Nat → String → String
  /-- `download_whatsapp_media` returns bytes (audio path) -/
  downloadOk : Bool
  /-- `config.SARVAM_API_KEY` is set -/
  apiKeyOk : Bool
  /-- realtime transcription outcome -/
  rt : RtOutcome
  /-- batch transcription outcome -/
  batch : BatchOutcome

/-- `check_idempotency` (`processors/apis.py`): on any request failure the
`except` returns `False`; otherwise the backend's answer. -/
def checkIdempotency (env : WEnv) (b : Backend) (waid : String) : Bool :=
  if env.idemOk then checkMsgExists b waid else false

/-- Observable side effects of a worker run, in order of occurrence.
`storeAttempt` is the POST `/internals/message` HTTP attempt (it reaches
the backend only if the corresponding `storeInOk`/`storeOutOk` oracle is
true); `llmCall` is a `generate_llm_response` invocation; `send` is a
`send_whatsapp_text` call. -/
inductive Effect where
  | storeAttempt (direction : Bool) (userId : Option Nat) (text : String)
      (waid : String)
  | llmCall (userId : Nat) (text : String)
  | send (phone : Option String) (text : String)
deriving DecidableEq

/-- `store_message` (`processors/apis.py`): the POST is attempted; the row
is appended to the backend only when the call succeeds.  The function
swallows `RequestException` and merely returns `False`, which every caller
ignores. -/
def storeMessage (ok : Bool) (b : Backend) (userId : Option Nat)
    (text : String) (waid : String) (direction : Bool) :
    Backend × List Effect :=
  (if ok then b ++ [⟨userId, direction, text, waid⟩] else b,
   [.storeAttempt direction userId text waid])

/-- The fixed reply for unregistered phone numbers
(`whatsapp_worker/main.py` line 111; apostrophe elided). -/
def welcomeMsg : String :=
  "Welcome! I do not recognize this phone number. Please contact support to register."

/-- The apology sent when `process_audio_sync` catches an exception
(emoji and apostrophe elided). -/
def audioApology : String :=
  "Sorry, I encountered an error processing your audio message."

/-- `process_audio_sync` (`processors/audio.py` lines 124-182). -/
def processAudioSync (env : WEnv) (b : Backend) (sender : Option String)
    (waid : String) : Backend × List Effect :=
  if ¬ env.downloadOk then
    (b, [.send sender "Error: Could not download audio."])
  else
    match sender.bind env.userByPhone with
    | none => (b, [.send sender welcomeMsg])
    | some uid =>
      match transcribeSarvamAudio env.apiKeyOk env.rt env.batch with
      | .error _ => (b, [.send sender audioApology])
      | .ok t =>
        if strStartsWith t "Error:" then (b, [.send sender t])
        else if t.trim = "" then
          (b, [.send sender "I could not hear anything in your audio message."])
        else
          let s1 := storeMessage env.storeInOk b (some uid) t waid true
          let reply := env.llmReply uid t
          let s2 := storeMessage env.storeOutOk s1.1 (some uid) reply waid false
          (s2.1, s1.2 ++ [.llmCall uid t] ++ s2.2 ++ [.send sender reply])

/-- The text-message body of `handle_webhook` (lines 98-118): user lookup,
inbound store, LLM or fixed reply, outbound store, send. -/
def processText (env : WEnv) (b : Backend) (sender : Option String)
    (textBody : String) (waid : String) : Backend × Nat × List Effect :=
  let userId := sender.bind env.userByPhone
  let s1 := storeMessage env.storeInOk b userId textBody waid true
  match userId with
  | some uid =>
    let reply := env.llmReply uid textBody
    let s2 := storeMessage env.storeOutOk s1.1 userId reply waid false
    (s2.1, 200,
     s1.2 ++ [.llmCall uid textBody] ++ s2.2
       ++ (match sender with | some p => [.send (some p) reply] | none => []))
  | none =>
    let s2 := storeMessage env.storeOutOk s1.1 none welcomeMsg waid false
    (s2.1, 200,
     s1.2 ++ s2.2
       ++ (match sender with
           | some p => [.send (some p) welcomeMsg] | none => []))

/-- Content of `messages[0]` as far as `handle_webhook` inspects it. -/
inductive WContent where
  | text (body : String)
  | audio (audioId : String)
  | other

/-- `messages[0]`: its `id`, optional `from`, and typed content. -/
structure WMsg where
  id : String
  sender : Option String
  content : WContent

/-- The `value` object of the webhook envelope
(`body["entry"][0]["changes"][0]["value"]`). -/
structure WValue where
  statuses : Bool
  messages : List WMsg
  contacts : List String

/-- `sender_waid = contacts[0].get("wa_id") if contacts ... else
msg.get("from")`. -/
def wSender (v : WValue) (msg : WMsg) : Option String :=
  match v.contacts with
  | c :: _ => some c
  | [] => msg.sender

/-- `handle_webhook` (`whatsapp_worker/main.py` lines 64-124): returns the
updated backend, the HTTP status, and the effect trace. -/
def handleWebhook (env : WEnv) (b : Backend) (v : WValue) :
    Backend × Nat × List Effect :=
  if v.statuses then (b, 200, [])
  else
    match v.messages with
    | [] => (b, 200, [])
    | msg :: _ =>
      if checkIdempotency env b msg.id then (b, 200, [])
      else
        match msg.content with
        | .text tb =>
          if tb = "" then (b, 200, [])
          else processText env b (wSender v msg) tb msg.id
        | .audio _ =>
          ((processAudioSync env b (wSender v msg) msg.id).1, 200,
           (processAudioSync env b (wSender v msg) msg.id).2)
        | .other => (b, 200, [])

/-- Number of persisted inbound turns carrying a given idempotency key. -/
def countInbound (b : Backend) (waid : String) : Nat :=
  (b.filter (fun m => m.direction && m.whatsappId == waid)).length

/-- Whether an outbound turn carrying the key is persisted. -/
def hasOutbound (b : Backend) (waid : String) : Bool :=
  b.any (fun m => !m.direction && m.whatsappId == waid)

/-- Number of LLM invocations in an effect trace. -/
def countLlm (effs : List Effect) : Nat :=
  (effs.filter (fun e => match e with | .llmCall _ _ => true | _ => false)).length

/-! ## Reminder scheduler (`whatsapp_worker/scheduler.py`)

`check_deadlines` sweeps the fetched tasks, classifies each task's minutes
until deadline into one tier, sends to every assignee with a phone, marks
the tier sent, and finally drops tracking entries for task ids not seen in
this sweep.  `sent_reminders` is an association list from task id to the
list of tier labels already sent (a Python `dict` of `set`s). -/

/-- One entry of a task's `assignees` array as served by
`/internals/tasks-with-deadlines`. -/
structure SchedAssignee where
  phone : Option String
deriving DecidableEq

/-- One task as consumed by `check_deadlines`: `task.get('id')`,
`task.get('deadline')` (`none` = field absent; `some none` = present but
`datetime.fromisoformat` raises; `some (some d)` = parses to the instant
`d`, in seconds on the scheduler's clock), and `task.get('assignees', [])`. -/
structure SchedTask where
  id : Option Nat
  deadline : Option (Option Int)
  assignees : List SchedAssignee
deriving DecidableEq

/-- The in-memory tracking map `sent_reminders`. -/
abbrev SentMap := List (Nat × List String)

/-- First-match lookup, mirroring Python dict access. -/
def lookupSent (m : SentMap) (t : Nat) : Option (List String) :=
  match m with
  | [] => none
  | (t2, rs) :: rest => if t2 = t then some rs else lookupSent rest t

/-- Membership of a tier in a task's sent set. -/
def memSent (m : SentMap) (t : Nat) (r : String) : Bool :=
  match lookupSent m t with
  | none => false
  | some rs => rs.contains r

/-- `_should_send_reminder`. -/
def shouldSendReminder (m : SentMap) (t : Nat) (r : String) : Bool :=
  !(memSent m t r)

/-- `_mark_reminder_sent`: create the entry if missing, then add the tier
(set semantics: no duplicate labels). -/
def markReminderSent (m : SentMap) (t : Nat) (r : String) : SentMap :=
  match m with
  | [] => [(t, [r])]
  | (t2, rs) :: rest =>
    if t2 = t then (t2, if rs.contains r then rs else rs ++ [r]) :: rest
    else (t2, rs) :: markReminderSent rest t r

/-- `minutes_until = (deadline - now).total_seconds() / 60`, an exact
rational (written with `mkRat` so that concrete instances evaluate). -/
def minutesUntil (now d : Int) : ℚ := mkRat (d - now) 60

theorem minutesUntil_eq_div (now d : Int) :
    minutesUntil now d = ((d - now : Int) : ℚ) / 60 := by
  rw [minutesUntil, Rat.mkRat_eq_div]
  norm_num

/-- `REMINDER_60_MIN` (`scheduler_config.py`). -/
def REMINDER_60_MIN : ℚ := 60

/-- `REMINDER_10_MIN` (`scheduler_config.py`). -/
def REMINDER_10_MIN : ℚ := 10

/-- The `if minutes_until <= 0 / elif <= REMINDER_10_MIN / elif <=
REMINDER_60_MIN` chain: the single tier the sweep would send now, or
`none`. -/
def classifyTier (m : ℚ) : Option String :=
  if m ≤ 0 then some "overdue"
  else if m ≤ REMINDER_10_MIN then some "10min"
  else if m ≤ REMINDER_60_MIN then some "60min"
  else none

/-- Result of one `notification_func(phone, task_dict)` call: a returned
status code, or an exception (caught and logged per assignee). -/
inductive SendOutcome where
  | status (code : Nat)
  | raised
deriving DecidableEq

/-- The send oracle: outcome of the notification call for a given task id,
tier and phone. -/
abbrev SendOracle := Nat → String → String → SendOutcome

/-- One attempted notification recorded by the sweep, with its outcome. -/
structure SchedEffect where
  taskId : Nat
  tier : String
  phone : String
  outcome : SendOutcome
deriving DecidableEq

/-- The notification loop over `assignees` (only those with a phone). -/
def sendAll (sr : SendOracle) (tid : Nat) (r : String)
    (assignees : List SchedAssignee) : List SchedEffect :=
  (assignees.filterMap (fun a => a.phone)).map
    (fun p => ⟨tid, r, p, sr tid r p⟩)

/-- The first guard of the loop body
(`if not task_id or not deadline_str or not assignees: continue`):
the task id that will be added to `active_task_ids`, if any.
Python truthiness makes id `0` falsy. -/
def taskGate (t : SchedTask) : Option Nat :=
  match t.id with
  | none => none
  | some tid =>
    if tid = 0 then none
    else
      match t.deadline with
      | none => none
      | some _ => if t.assignees = [] then none else some tid

/-- The parsed deadline of a gated task, if `datetime.fromisoformat`
succeeds. -/
def parsedDeadline (t : SchedTask) : Option Int :=
  t.deadline.bind id

/-- The tier the sweep computes for a task at time `now`, when the task
passes the gate and its deadline parses. -/
def taskTier (now : Int) (t : SchedTask) : Option (Nat × String) :=
  match taskGate t with
  | none => none
  | some tid =>
    match parsedDeadline t with
    | none => none
    | some d =>
      match classifyTier (minutesUntil now d) with
      | none => none
      | some r => some (tid, r)

/-- Accumulator of the sweep: tracking map, `active_task_ids` (as a list,
in insertion order), and the notification attempts so far. -/
structure SweepState where
  sent : SentMap
  active : List Nat
  effs : List SchedEffect

/-- The body of the `for task in tasks` loop of `check_deadlines`. -/
def stepTask (sr : SendOracle) (now : Int) (st : SweepState)
    (t : SchedTask) : SweepState :=
  match taskGate t with
  | none => st
  | some tid =>
    let act2 := st.active ++ [tid]
    match parsedDeadline t with
    | none => ⟨st.sent, act2, st.effs⟩
    | some d =>
      match classifyTier (minutesUntil now d) with
      | none => ⟨st.sent, act2, st.effs⟩
      | some r =>
        if memSent st.sent tid r then ⟨st.sent, act2, st.effs⟩
        else
          ⟨markReminderSent st.sent tid r, act2,
           st.effs ++ sendAll sr tid r t.assignees⟩

/-- `_cleanup_completed_tasks`: keep only entries whose task id was seen in
this sweep. -/
def cleanupCompletedTasks (active : List Nat) (m : SentMap) : SentMap :=
  m.filter (fun p => active.contains p.1)

/-- `check_deadlines`: fetch result `tasks`, current map `m0`; note the
early `if not tasks: return`, which skips both the sweep and the cleanup
when the fetch fails or returns no tasks. -/
def checkDeadlines (sr : SendOracle) (now : Int) (tasks : List SchedTask)
    (m0 : SentMap) : SentMap × List SchedEffect :=
  if tasks = [] then (m0, [])
  else
    (cleanupCompletedTasks
       ((tasks.foldl (stepTask sr now) ⟨m0, [], []⟩)).active
       ((tasks.foldl (stepTask sr now) ⟨m0, [], []⟩)).sent,
     ((tasks.foldl (stepTask sr now) ⟨m0, [], []⟩)).effs)

/-- The ids contributed to `active_task_ids` by a sweep over `tasks`. -/
def activeIds (tasks : List SchedTask) : List Nat :=
  tasks.filterMap taskGate

/-! ## Ingress receiver (`whatsapp_receive/queue.py`, `whatsapp/security.py`) -/

/-- `validate_signature` (`whatsapp/security.py` lines 19-25).  `hmacHex`
abstracts `hmac.new(secret, raw_body, sha256).hexdigest()`;
`hmac.compare_digest` is constant-time string equality.  `sigHeader` is
`headers.get("X-Hub-Signature-256", "")`; a missing `sha256=` prefix or a
falsy secret makes the function return `True` (accept). -/
def validateSignature (hmacHex : String → List Nat → String)
    (rawBody : List Nat) (sigHeader : String)
    (appSecret : Option String) : Bool :=
  if ¬ strStartsWith sigHeader "sha256=" ∨ appSecret.getD "" = "" then true
  else hmacHex (appSecret.getD "") rawBody == strDrop sigHeader 7

/-- Result of `push_to_queue`: HTTP status and the list of message bodies
handed to `sqs.send_message`. -/
structure PushResult where
  status : Nat
  enqueued : List String
deriving DecidableEq

/-- `push_to_queue` (`whatsapp_receive/queue.py` lines 26-58).  The
signature check at lines 36-37 is commented out in the source, so the
function enqueues unconditionally; `body` stands for the serialized
`json.dumps(body)` string and `sqsOk` for whether `sqs.send_message`
returns without raising. -/
def pushToQueue (sqsOk : Bool) (body : String) (_headers : String)
    (_rawBody : List Nat) : PushResult :=
  if sqsOk then ⟨200, [body]⟩ else ⟨500, []⟩

/-! ## Scheduler lemmas -/

theorem contains_true_iff {l : List Nat} {x : Nat} :
    l.contains x = true ↔ x ∈ l :=
  ⟨fun h => List.mem_of_elem_eq_true h, fun h => List.elem_eq_true_of_mem h⟩

theorem memSent_mark_mono {m : SentMap} {t t2 : Nat} {r r2 : String}
    (h : memSent m t r = true) :
    memSent (markReminderSent m t2 r2) t r = true := by
  induction m with
  | nil => simp [memSent, lookupSent] at h
  | cons p rest ih =>
    obtain ⟨t3, rs⟩ := p
    simp only [markReminderSent]
    by_cases he : t3 = t2
    · rw [if_pos he]
      by_cases ht : t3 = t
      · simp only [memSent, lookupSent, if_pos ht] at h ⊢
        by_cases hc : rs.contains r2
        · rw [if_pos hc]; exact h
        · rw [if_neg hc]
          exact List.elem_eq_true_of_mem
            (List.mem_append_left _ (List.mem_of_elem_eq_true h))
      · simp only [memSent, lookupSent, if_neg ht] at h ⊢
        exact h
    · rw [if_neg he]
      by_cases ht : t3 = t
      · simp only [memSent, lookupSent, if_pos ht] at h ⊢
        exact h
      · simp only [memSent, lookupSent, if_neg ht] at h ⊢
        exact ih h

theorem memSent_mark_self {m : SentMap} {t : Nat} {r : String} :
    memSent (markReminderSent m t r) t r = true := by
  induction m with
  | nil => simp [markReminderSent, memSent, lookupSent]
  | cons p rest ih =>
    obtain ⟨t2, rs⟩ := p
    simp only [markReminderSent]
    by_cases he : t2 = t
    · rw [if_pos he]
      simp only [memSent, lookupSent, if_pos he]
      by_cases hc : rs.contains r
      · rw [if_pos hc]; exact hc
      · rw [if_neg hc]
        exact List.elem_eq_true_of_mem (List.mem_append_right _ (by simp))
    · rw [if_neg he]
      simp only [memSent, lookupSent, if_neg he]
      exact ih

theorem lookupSent_cleanup_mem {active : List Nat} {m : SentMap} {tid : Nat}
    (h : active.contains tid = true) :
    lookupSent (cleanupCompletedTasks active m) tid = lookupSent m tid := by
  induction m with
  | nil => rfl
  | cons p rest ih =>
    obtain ⟨t2, rs⟩ := p
    unfold cleanupCompletedTasks at ih ⊢
    rw [List.filter_cons]
    by_cases hp : active.contains t2 = true
    · rw [if_pos hp]
      by_cases he : t2 = tid
      · simp only [lookupSent, if_pos he]
      · simp only [lookupSent, if_neg he]
        exact ih
    · rw [if_neg hp]
      have he : t2 ≠ tid := by
        intro heq
        subst heq
        exact hp h
      calc lookupSent (List.filter (fun p => active.contains p.1) rest) tid
          = lookupSent rest tid := ih
        _ = lookupSent ((t2, rs) :: rest) tid := by
            simp only [lookupSent, if_neg he]

theorem lookupSent_cleanup_not_mem {active : List Nat} {m : SentMap}
    {tid : Nat} (h : active.contains tid = false) :
    lookupSent (cleanupCompletedTasks active m) tid = none := by
  induction m with
  | nil => rfl
  | cons p rest ih =>
    obtain ⟨t2, rs⟩ := p
    unfold cleanupCompletedTasks at ih ⊢
    rw [List.filter_cons]
    by_cases hp : active.contains t2 = true
    · rw [if_pos hp]
      have he : t2 ≠ tid := by
        intro heq
        subst heq
        rw [h] at hp
        cases hp
      simp only [lookupSent, if_neg he]
      exact ih
    · rw [if_neg hp]
      exact ih

theorem memSent_cleanup_mem {active : List Nat} {m : SentMap} {tid : Nat}
    {r : String} (h : active.contains tid = true) :
    memSent (cleanupCompletedTasks active m) tid r = memSent m tid r := by
  unfold memSent
  rw [lookupSent_cleanup_mem h]

theorem taskTier_some_elim {now : Int} {t : SchedTask} {tid : Nat}
    {r : String} (h : taskTier now t = some (tid, r)) :
    ∃ d, taskGate t = some tid ∧ parsedDeadline t = some d
      ∧ classifyTier (minutesUntil now d) = some r := by
  unfold taskTier at h
  split at h
  · cases h
  · rename_i tid2 hg
    split at h
    · cases h
    · rename_i d hd
      split at h
      · cases h
      · rename_i r2 hc
        injection h with h
        injection h with h1 h2
        subst h1
        subst h2
        exact ⟨d, hg, hd, hc⟩

theorem taskTier_intro {now : Int} {t : SchedTask} {tid : Nat} {d : Int}
    {r : String} (hg : taskGate t = some tid) (hd : parsedDeadline t = some d)
    (hc : classifyTier (minutesUntil now d) = some r) :
    taskTier now t = some (tid, r) := by
  simp [taskTier, hg, hd, hc]

theorem stepTask_gate_none {sr : SendOracle} {now : Int} {st : SweepState}
    {t : SchedTask} (h : taskGate t = none) :
    stepTask sr now st t = st := by
  simp [stepTask, h]

theorem stepTask_noparse {sr : SendOracle} {now : Int} {st : SweepState}
    {t : SchedTask} {tid : Nat} (hg : taskGate t = some tid)
    (hd : parsedDeadline t = none) :
    stepTask sr now st t = ⟨st.sent, st.active ++ [tid], st.effs⟩ := by
  simp [stepTask, hg, hd]

theorem stepTask_notier {sr : SendOracle} {now : Int} {st : SweepState}
    {t : SchedTask} {tid : Nat} {d : Int} (hg : taskGate t = some tid)
    (hd : parsedDeadline t = some d)
    (hc : classifyTier (minutesUntil now d) = none) :
    stepTask sr now st t = ⟨st.sent, st.active ++ [tid], st.effs⟩ := by
  simp [stepTask, hg, hd, hc]

theorem stepTask_already {sr : SendOracle} {now : Int} {st : SweepState}
    {t : SchedTask} {tid : Nat} {d : Int} {r : String}
    (hg : taskGate t = some tid) (hd : parsedDeadline t = some d)
    (hc : classifyTier (minutesUntil now d) = some r)
    (hm : memSent st.sent tid r = true) :
    stepTask sr now st t = ⟨st.sent, st.active ++ [tid], st.effs⟩ := by
  simp [stepTask, hg, hd, hc, hm]

theorem stepTask_fire {sr : SendOracle} {now : Int} {st : SweepState}
    {t : SchedTask} {tid : Nat} {d : Int} {r : String}
    (hg : taskGate t = some tid) (hd : parsedDeadline t = some d)
    (hc : classifyTier (minutesUntil now d) = some r)
    (hm : memSent st.sent tid r = false) :
    stepTask sr now st t =
      ⟨markReminderSent st.sent tid r, st.active ++ [tid],
       st.effs ++ sendAll sr tid r t.assignees⟩ := by
  simp [stepTask, hg, hd, hc, hm]

theorem stepTask_sent_mono {sr : SendOracle} {now : Int} {st : SweepState}
    {t2 : SchedTask} {t : Nat} {r : String}
    (h : memSent st.sent t r = true) :
    memSent (stepTask sr now st t2).sent t r = true := by
  unfold stepTask
  split
  · exact h
  · split
    · exact h
    · split
      · exact h
      · split
        · exact h
        · exact memSent_mark_mono h

theorem foldl_sent_mono {sr : SendOracle} {now : Int} {t : Nat} {r : String}
    (tasks : List SchedTask) :
    ∀ st : SweepState, memSent st.sent t r = true →
      memSent ((tasks.foldl (stepTask sr now) st)).sent t r = true := by
  induction tasks with
  | nil => intro st h; exact h
  | cons head tail ih =>
    intro st h
    rw [List.foldl_cons]
    exact ih _ (stepTask_sent_mono h)

theorem foldl_marks {sr : SendOracle} {now : Int} (tasks : List SchedTask) :
    ∀ (st : SweepState) (t : SchedTask) (tid : Nat) (r : String),
      t ∈ tasks → taskTier now t = some (tid, r) →
      memSent ((tasks.foldl (stepTask sr now) st)).sent tid r = true := by
  induction tasks with
  | nil => intro st t tid r h; simp at h
  | cons head tail ih =>
    intro st t tid r hmem htier
    rw [List.foldl_cons]
    rcases List.mem_cons.mp hmem with heq | htail
    · subst heq
      apply foldl_sent_mono
      obtain ⟨d, hg, hd, hc⟩ := taskTier_some_elim htier
      by_cases hm : memSent st.sent tid r = true
      · rw [stepTask_already hg hd hc hm]
        exact hm
      · rw [stepTask_fire hg hd hc (by simpa using hm)]
        exact memSent_mark_self
    · exact ih _ t tid r htail htier

theorem stepTask_active_mono {sr : SendOracle} {now : Int} {st : SweepState}
    {t2 : SchedTask} {x : Nat} (h : x ∈ st.active) :
    x ∈ (stepTask sr now st t2).active := by
  unfold stepTask
  split
  · exact h
  · split
    · exact List.mem_append_left _ h
    · split
      · exact List.mem_append_left _ h
      · split
        · exact List.mem_append_left _ h
        · exact List.mem_append_left _ h

theorem stepTask_active_gate {sr : SendOracle} {now : Int} {st : SweepState}
    {t2 : SchedTask} {tid : Nat} (h : taskGate t2 = some tid) :
    tid ∈ (stepTask sr now st t2).active := by
  cases hd : parsedDeadline t2 with
  | none => rw [stepTask_noparse h hd]; simp
  | some d =>
    cases hc : classifyTier (minutesUntil now d) with
    | none => rw [stepTask_notier h hd hc]; simp
    | some r =>
      by_cases hm : memSent st.sent tid r = true
      · rw [stepTask_already h hd hc hm]; simp
      · rw [stepTask_fire h hd hc (by simpa using hm)]; simp

theorem foldl_active_mono {sr : SendOracle} {now : Int} {x : Nat}
    (tasks : List SchedTask) :
    ∀ st : SweepState, x ∈ st.active →
      x ∈ ((tasks.foldl (stepTask sr now) st)).active := by
  induction tasks with
  | nil => intro st h; exact h
  | cons head tail ih =>
    intro st h
    rw [List.foldl_cons]
    exact ih _ (stepTask_active_mono h)

theorem foldl_active_gate {sr : SendOracle} {now : Int}
    (tasks : List SchedTask) :
    ∀ (st : SweepState) (t : SchedTask) (tid : Nat), t ∈ tasks →
      taskGate t = some tid →
      tid ∈ ((tasks.foldl (stepTask sr now) st)).active := by
  induction tasks with
  | nil => intro st t tid h; simp at h
  | cons head tail ih =>
    intro st t tid hmem hg
    rw [List.foldl_cons]
    rcases List.mem_cons.mp hmem with heq | htail
    · subst heq
      exact foldl_active_mono tail _ (stepTask_active_gate hg)
    · exact ih _ t tid htail hg

theorem stepTask_preserve {sr : SendOracle} {now : Int} {st : SweepState}
    {t : SchedTask}
    (h : ∀ tid r, taskTier now t = some (tid, r) →
      memSent st.sent tid r = true) :
    (stepTask sr now st t).sent = st.sent
      ∧ (stepTask sr now st t).effs = st.effs := by
  cases hg : taskGate t with
  | none => rw [stepTask_gate_none hg]; exact ⟨rfl, rfl⟩
  | some tid =>
    cases hd : parsedDeadline t with
    | none => rw [stepTask_noparse hg hd]; exact ⟨rfl, rfl⟩
    | some d =>
      cases hc : classifyTier (minutesUntil now d) with
      | none => rw [stepTask_notier hg hd hc]; exact ⟨rfl, rfl⟩
      | some r =>
        have hm : memSent st.sent tid r = true :=
          h tid r (taskTier_intro hg hd hc)
        rw [stepTask_already hg hd hc hm]
        exact ⟨rfl, rfl⟩

theorem foldl_no_new_effs {sr : SendOracle} {now : Int}
    (tasks : List SchedTask) :
    ∀ st : SweepState,
      (∀ t ∈ tasks, ∀ tid r, taskTier now t = some (tid, r) →
        memSent st.sent tid r = true) →
      ((tasks.foldl (stepTask sr now) st)).sent = st.sent
        ∧ ((tasks.foldl (stepTask sr now) st)).effs = st.effs := by
  induction tasks with
  | nil => intro st _; exact ⟨rfl, rfl⟩
  | cons head tail ih =>
    intro st h
    rw [List.foldl_cons]
    have hstep := @stepTask_preserve sr now st head
      (fun tid r ht => h head (by simp) tid r ht)
    have htail := ih (stepTask sr now st head) (fun t ht tid r htier => by
      rw [hstep.1]
      exact h t (by simp [ht]) tid r htier)
    exact ⟨hstep.1 ▸ htail.1, hstep.2 ▸ htail.2⟩

theorem stepTask_map_eq {sr1 sr2 : SendOracle} {now : Int}
    {st1 st2 : SweepState} {t : SchedTask} (h1 : st1.sent = st2.sent)
    (h2 : st1.active = st2.active) :
    (stepTask sr1 now st1 t).sent = (stepTask sr2 now st2 t).sent
      ∧ (stepTask sr1 now st1 t).active = (stepTask sr2 now st2 t).active := by
  cases hg : taskGate t with
  | none =>
    rw [stepTask_gate_none hg, stepTask_gate_none hg]
    exact ⟨h1, h2⟩
  | some tid =>
    cases hd : parsedDeadline t with
    | none =>
      rw [stepTask_noparse hg hd, stepTask_noparse hg hd]
      exact ⟨h1, by rw [h2]⟩
    | some d =>
      cases hc : classifyTier (minutesUntil now d) with
      | none =>
        rw [stepTask_notier hg hd hc, stepTask_notier hg hd hc]
        exact ⟨h1, by rw [h2]⟩
      | some r =>
        by_cases hm : memSent st1.sent tid r = true
        · rw [stepTask_already hg hd hc hm,
            stepTask_already hg hd hc (h1 ▸ hm)]
          exact ⟨h1, by rw [h2]⟩
        · have hm2 : memSent st1.sent tid r = false := by
            simpa using hm
          rw [stepTask_fire hg hd hc hm2,
            stepTask_fire hg hd hc (h1 ▸ hm2)]
          exact ⟨by rw [h1], by rw [h2]⟩

theorem foldl_map_eq {sr1 sr2 : SendOracle} {now : Int}
    (tasks : List SchedTask) :
    ∀ st1 st2 : SweepState, st1.sent = st2.sent → st1.active = st2.active →
      ((tasks.foldl (stepTask sr1 now) st1)).sent
          = ((tasks.foldl (stepTask sr2 now) st2)).sent
        ∧ ((tasks.foldl (stepTask sr1 now) st1)).active
          = ((tasks.foldl (stepTask sr2 now) st2)).active := by
  induction tasks with
  | nil => intro st1 st2 h1 h2; exact ⟨h1, h2⟩
  | cons head tail ih =>
    intro st1 st2 h1 h2
    rw [List.foldl_cons, List.foldl_cons]
    have hstep := @stepTask_map_eq sr1 sr2 now st1 st2 head h1 h2
    exact ih _ _ hstep.1 hstep.2

theorem foldl_active_eq {sr : SendOracle} {now : Int}
    (tasks : List SchedTask) :
    ∀ st : SweepState,
      ((tasks.foldl (stepTask sr now) st)).active
        = st.active ++ activeIds tasks := by
  induction tasks with
  | nil => intro st; simp [activeIds]
  | cons head tail ih =>
    intro st
    rw [List.foldl_cons, ih]
    cases hg : taskGate head with
    | none =>
      rw [stepTask_gate_none hg]
      simp [activeIds, List.filterMap_cons, hg]
    | some tid =>
      have hact : (stepTask sr now st head).active = st.active ++ [tid] := by
        cases hd : parsedDeadline head with
        | none => rw [stepTask_noparse hg hd]
        | some d =>
          cases hc : classifyTier (minutesUntil now d) with
          | none => rw [stepTask_notier hg hd hc]
          | some r =>
            by_cases hm : memSent st.sent tid r = true
            · rw [stepTask_already hg hd hc hm]
            · rw [stepTask_fire hg hd hc (by simpa using hm)]
      rw [hact]
      simp [activeIds, List.filterMap_cons, hg]

/-! ## Worker lemmas -/

theorem checkIdempotency_of_not_exists {env : WEnv} {b : Backend}
    {waid : String} (h : checkMsgExists b waid = false) :
    checkIdempotency env b waid = false := by
  unfold checkIdempotency
  split
  · exact h
  · rfl

theorem countInbound_zero {b : Backend} {waid : String}
    (h : checkMsgExists b waid = false) : countInbound b waid = 0 := by
  unfold checkMsgExists at h
  unfold countInbound
  induction b with
  | nil => rfl
  | cons m rest ih =>
    simp only [List.any_cons, Bool.or_eq_false_iff] at h
    rw [List.filter_cons]
    rw [if_neg (by simp [h.1])]
    exact ih h.2

theorem handleWebhook_skip {env : WEnv} {b : Backend} {v : WValue}
    {msg : WMsg} {rest : List WMsg} (hs : v.statuses = false)
    (hm : v.messages = msg :: rest)
    (hid : checkIdempotency env b msg.id = true) :
    handleWebhook env b v = (b, 200, []) := by
  simp [handleWebhook, hs, hm, hid]

theorem handleWebhook_text_eq {env : WEnv} {b : Backend} {v : WValue}
    {msg : WMsg} {rest : List WMsg} {tb : String} (hs : v.statuses = false)
    (hm : v.messages = msg :: rest)
    (hid : checkIdempotency env b msg.id = false)
    (hct : msg.content = .text tb) (htb : tb ≠ "") :
    handleWebhook env b v = processText env b (wSender v msg) tb msg.id := by
  simp [handleWebhook, hs, hm, hid, hct, htb]

theorem processText_countInbound {env : WEnv} {b : Backend}
    {sender : Option String} {tb waid : String} (h : env.storeInOk = true) :
    countInbound (processText env b sender tb waid).1 waid
      = countInbound b waid + 1 := by
  unfold processText storeMessage
  cases hu : sender.bind env.userByPhone <;>
    by_cases ho : env.storeOutOk <;>
      simp [hu, h, ho, countInbound, List.filter_append]

theorem processText_exists {env : WEnv} {b : Backend}
    {sender : Option String} {tb waid : String} (h : env.storeInOk = true) :
    checkMsgExists (processText env b sender tb waid).1 waid = true := by
  unfold processText storeMessage
  cases hu : sender.bind env.userByPhone <;>
    by_cases ho : env.storeOutOk <;>
      simp [hu, h, ho, checkMsgExists, List.any_append]

theorem processText_llm_le {env : WEnv} {b : Backend}
    {sender : Option String} {tb waid : String} :
    countLlm (processText env b sender tb waid).2.2 ≤ 1 := by
  unfold processText storeMessage
  cases hu : sender.bind env.userByPhone <;>
    cases sender <;>
      simp [hu, countLlm, List.filter_append]

/-! ## Concrete fixtures used by witnesses and counterexamples -/

/-- A task one minute past its deadline (seconds on the scheduler clock),
with one assignee who has a phone number. -/
def cTask : SchedTask := ⟨some 1, some (some (-60)), [⟨some "p1"⟩]⟩

/-- A send oracle on which every notification attempt fails with HTTP 500. -/
def srFail : SendOracle := fun _ _ _ => .status 500

/-! ## Claim theorems: reminder scheduler -/

/-- C5: for every task in every sweep, the minutes-until-deadline value is
classified into exactly one tier of overdue (≤ 0), imminent (≤ 10),
warning (≤ 60) or none (the single most urgent applicable one); the
notification is sent to the assignees only when that tier is not already in
the task's sent set, so re-running the same sweep without advancing time
produces no further sends — each tier fires at most once per task before
cleanup. -/
theorem scheduler_tier_spec :
    (∀ m : ℚ,
      (classifyTier m = some "overdue" ↔ m ≤ 0)
      ∧ (classifyTier m = some "10min" ↔ 0 < m ∧ m ≤ 10)
      ∧ (classifyTier m = some "60min" ↔ 10 < m ∧ m ≤ 60)
      ∧ (classifyTier m = none ↔ 60 < m))
    ∧ (∀ (sr : SendOracle) (now : Int) (tasks : List SchedTask)
        (m0 : SentMap),
        (checkDeadlines sr now tasks (checkDeadlines sr now tasks m0).1).2
          = [])
    ∧ (∀ (sr : SendOracle) (now : Int) (t : SchedTask) (m0 : SentMap)
        (tid : Nat) (r : String), taskTier now t = some (tid, r) →
        (checkDeadlines sr now [t] m0).2
          = if memSent m0 tid r then [] else sendAll sr tid r t.assignees) := by
  refine ⟨?_, ?_, ?_⟩
  · intro m
    unfold classifyTier REMINDER_10_MIN REMINDER_60_MIN
    split_ifs with h1 h2 h3 <;>
      refine ⟨⟨fun hx => ?_, fun hx => ?_⟩, ⟨fun hx => ?_, fun hx => ?_⟩,
        ⟨fun hx => ?_, fun hx => ?_⟩, ⟨fun hx => ?_, fun hx => ?_⟩⟩ <;>
      first
        | rfl
        | linarith
        | (exact Option.noConfusion hx)
        | (exact absurd hx (by decide))
        | (exact absurd hx h1)
        | (exact ⟨by linarith, by linarith⟩)
  · intro sr now tasks m0
    by_cases ht : tasks = []
    · subst ht
      simp [checkDeadlines]
    · have hm1 : (checkDeadlines sr now tasks m0).1
          = cleanupCompletedTasks
              ((tasks.foldl (stepTask sr now) ⟨m0, [], []⟩)).active
              ((tasks.foldl (stepTask sr now) ⟨m0, [], []⟩)).sent := by
        unfold checkDeadlines
        rw [if_neg ht]
      have hkey : ∀ t ∈ tasks, ∀ tid r, taskTier now t = some (tid, r) →
          memSent (checkDeadlines sr now tasks m0).1 tid r = true := by
        intro t htm tid r htier
        obtain ⟨d, hg, hd, hc⟩ := taskTier_some_elim htier
        have hmark := @foldl_marks sr now tasks
          ⟨m0, [], []⟩ t tid r htm htier
        have hact := @foldl_active_gate sr now tasks
          ⟨m0, [], []⟩ t tid htm hg
        rw [hm1, memSent_cleanup_mem (contains_true_iff.mpr hact)]
        exact hmark
      conv_lhs => rw [checkDeadlines]
      rw [if_neg ht]
      exact (foldl_no_new_effs tasks
        ⟨(checkDeadlines sr now tasks m0).1, [], []⟩ hkey).2
  · intro sr now t m0 tid r htier
    obtain ⟨d, hg, hd, hc⟩ := taskTier_some_elim htier
    unfold checkDeadlines
    rw [if_neg (by simp)]
    by_cases hm : memSent m0 tid r = true
    · rw [if_pos hm]
      simp only [List.foldl_cons, List.foldl_nil]
      rw [stepTask_already hg hd hc hm]
    · rw [if_neg hm]
      simp only [List.foldl_cons, List.foldl_nil]
      rw [stepTask_fire hg hd hc (by simpa using hm)]
      simp

/-- C5 witness: a task one minute overdue with a fresh tracking map fires
the overdue notification to its assignee, and re-running the identical
sweep sends nothing. -/
theorem scheduler_tier_spec_witness :
    (checkDeadlines srFail 0 [cTask] []).2
      = sendAll srFail 1 "overdue" cTask.assignees
    ∧ (checkDeadlines srFail 0 [cTask]
        (checkDeadlines srFail 0 [cTask] []).1).2 = [] := by
  constructor
  · have h := scheduler_tier_spec.2.2 srFail 0 cTask [] 1 "overdue" (by decide)
    rw [h]
    rfl
  · exact scheduler_tier_spec.2.1 srFail 0 [cTask] []

/-- C4 counterexample: the claim says the tracking set is unchanged when
every attempted send for the computed tier fails; but with a single
overdue task whose only send attempt returns HTTP 500, `check_deadlines`
still marks the tier sent (`_mark_reminder_sent` runs unconditionally
after the send loop). -/
theorem scheduler_mark_counterexample :
    (checkDeadlines srFail 0 [cTask] []).2
      = [⟨1, "overdue", "p1", .status 500⟩]
    ∧ (checkDeadlines srFail 0 [cTask] []).1 = [(1, ["overdue"])] := by
  constructor
  · rfl
  · rfl

/-- C4 amended: the tracking map produced by a sweep does not depend on the
send outcomes at all — `_mark_reminder_sent` runs for every computed due
tier whether the sends succeed, fail, or raise — and whenever a sweep
computes a due tier for a task, that tier is in the task's tracking set
after the sweep, regardless of the send results. -/
theorem scheduler_mark_regardless :
    (∀ (sr1 sr2 : SendOracle) (now : Int) (tasks : List SchedTask)
        (m0 : SentMap),
      (checkDeadlines sr1 now tasks m0).1 = (checkDeadlines sr2 now tasks m0).1)
    ∧ (∀ (sr : SendOracle) (now : Int) (tasks : List SchedTask)
        (m0 : SentMap) (t : SchedTask) (tid : Nat) (r : String),
        t ∈ tasks → taskTier now t = some (tid, r) →
        memSent (checkDeadlines sr now tasks m0).1 tid r = true) := by
  constructor
  · intro sr1 sr2 now tasks m0
    by_cases ht : tasks = []
    · subst ht
      simp [checkDeadlines]
    · unfold checkDeadlines
      rw [if_neg ht, if_neg ht]
      have h := @foldl_map_eq sr1 sr2 now tasks
        ⟨m0, [], []⟩ ⟨m0, [], []⟩ rfl rfl
      show cleanupCompletedTasks _ _ = cleanupCompletedTasks _ _
      rw [h.1, h.2]
  · intro sr now tasks m0 t tid r htm htier
    have ht : tasks ≠ [] := List.ne_nil_of_mem htm
    obtain ⟨d, hg, hd, hc⟩ := taskTier_some_elim htier
    unfold checkDeadlines
    rw [if_neg ht]
    show memSent (cleanupCompletedTasks _ _) tid r = true
    rw [memSent_cleanup_mem (contains_true_iff.mpr
      (@foldl_active_gate sr now tasks ⟨m0, [], []⟩ t tid htm hg))]
    exact @foldl_marks sr now tasks ⟨m0, [], []⟩ t tid r htm htier

/-- C4 amended witness: with the all-sends-fail oracle the overdue tier is
still recorded for the task. -/
theorem scheduler_mark_regardless_witness :
    memSent (checkDeadlines srFail 0 [cTask] []).1 1 "overdue" = true :=
  scheduler_mark_regardless.2 srFail 0 [cTask] [] cTask 1 "overdue"
    (by simp) (by decide)

/-- C6 counterexample: the claim says every tracking entry whose task id is
not in the sweep's active set is removed after the sweep, for every prior
state of the map; but when the fetched task list is empty (for example,
the last active task was just completed), `check_deadlines` returns before
the cleanup (`if not tasks: return`) and the stale entry survives. -/
theorem scheduler_cleanup_counterexample :
    (checkDeadlines srFail 0 [] [(1, ["60min"])]).1 = [(1, ["60min"])] := by
  rfl

/-- C6 amended: after a sweep whose fetched task list is non-empty, every
tracking entry whose task id is not in the sweep's active set is removed;
when the fetch returns no tasks (or fails, which yields the empty list),
the sweep returns early and the map is left untouched. -/
theorem scheduler_cleanup_spec :
    (∀ (sr : SendOracle) (now : Int) (tasks : List SchedTask) (m0 : SentMap)
        (tid : Nat), tasks ≠ [] → (activeIds tasks).contains tid = false →
        lookupSent (checkDeadlines sr now tasks m0).1 tid = none)
    ∧ (∀ (sr : SendOracle) (now : Int) (m0 : SentMap),
        checkDeadlines sr now [] m0 = (m0, [])) := by
  constructor
  · intro sr now tasks m0 tid ht hact
    unfold checkDeadlines
    rw [if_neg ht]
    show lookupSent (cleanupCompletedTasks _ _) tid = none
    apply lookupSent_cleanup_not_mem
    rw [@foldl_active_eq sr now tasks ⟨m0, [], []⟩]
    simpa using hact
  · intro sr now m0
    rfl

/-- C6 amended witness: a sweep that still sees one task (id 1) drops the
tracking entry of the finished task 2. -/
theorem scheduler_cleanup_spec_witness :
    lookupSent (checkDeadlines srFail 0 [cTask] [(2, ["60min"])]).1 2
      = none :=
  scheduler_cleanup_spec.1 srFail 0 [cTask] [(2, ["60min"])] 2
    (by decide) (by decide)

/-! ## Claim theorems: LLM orchestration -/

/-- C7: when every LLM invocation raises an exception whose message matches
one of the transient tool-validation substrings, exactly `max_retries + 1`
invocations occur (3 for the default `max_retries = 2`) before the last
exception propagates, with sleeps of `0.5 × attempt-number` seconds between
consecutive attempts (`backoffs = [1, ..., max_retries]` in 0.5 s units);
an exception that matches none of the substrings propagates immediately
after a single invocation. -/
theorem chat_retry_spec (outcome : Nat → LLMCallResult) (mr : Nat) :
    (∀ e : Nat → List Char,
      (∀ i, outcome i = .failure (e i)) →
      (∀ i, isToolError (e i) = true) →
      chatWithMcp outcome mr
        = ⟨mr + 1, List.range' 1 mr, .error (e mr)⟩)
    ∧ (∀ e0 : List Char, outcome 0 = .failure e0 → isToolError e0 = false →
      chatWithMcp outcome mr = ⟨1, [], .error e0⟩) := by
  constructor
  · intro e h1 h2
    have h := chatGo_allFail outcome mr e h1 h2 mr 0 (by omega) (by omega)
    simpa [chatWithMcp] using h
  · intro e0 h1 h2
    exact chatGo_nontool outcome mr 0 e0 h1 h2

/-- The transient message used to exercise the retry loop. -/
def cFailMsg : List Char := String.toList "tool call validation failed"

/-- An oracle that fails with the transient message on every attempt. -/
def cOutcomeFail : Nat → LLMCallResult := fun _ => .failure cFailMsg

/-- C7 witness: with the default `max_retries = 2` and an always-failing
transient error, exactly 3 invocations occur, with backoffs of 0.5 s and
1.0 s, and the error then propagates. -/
theorem chat_retry_spec_witness :
    chatWithMcp cOutcomeFail 2 = ⟨3, [1, 2], .error cFailMsg⟩ := by
  have htool : isToolError cFailMsg = true := by decide
  have h := (chat_retry_spec cOutcomeFail 2).1 (fun _ => cFailMsg)
    (fun _ => rfl) (fun _ => htool)
  simpa [List.range'] using h

/-- C8: stripping a corrupted delimiter-bracketed suffix
(`<|token|>lowercase`) from a clean tool name yields exactly the clean
name (and the name changes, so the correction branch that logs fires); a
name in which the pattern matches nowhere is returned unchanged; hence
applying the sanitizer twice equals applying it once on such names. -/
theorem sanitizer_spec (c B W : List Char)
    (hc : ∀ ch ∈ c, ch ≠ '<') (hB : B ≠ []) (hB2 : ∀ ch ∈ B, ch ≠ '|')
    (hW : W ≠ []) (hW2 : ∀ ch ∈ W, isToolSuffixChar ch = true) :
    sanitizeToolName (c ++ corruptedSuffix B W) = c
    ∧ sanitizeToolName (c ++ corruptedSuffix B W) ≠ c ++ corruptedSuffix B W
    ∧ (∀ n : List Char, (∀ s, s <:+ n → matchCorruption s = none) →
        sanitizeToolName n = n)
    ∧ sanitizeToolName (sanitizeToolName (c ++ corruptedSuffix B W))
        = sanitizeToolName (c ++ corruptedSuffix B W) := by
  have hmain := sanitizeToolName_strip hc hB hB2 hW hW2
  refine ⟨hmain, ?_, ?_, ?_⟩
  · rw [hmain]
    intro heq
    have hlen := congrArg List.length heq
    simp only [corruptedSuffix, List.length_append, List.length_cons] at hlen
    omega
  · intro n hno
    exact sanitizeToolName_of_no_match hno
  · rw [hmain]
    exact sanitizeToolName_of_no_match (no_match_of_no_langle hc)

/-- C8 witness: `create_task<|channel|>commentary` is sanitized to
`create_task` (spec Scenario D). -/
theorem sanitizer_spec_witness :
    sanitizeToolName (String.toList "create_task"
        ++ corruptedSuffix (String.toList "channel")
             (String.toList "commentary"))
      = String.toList "create_task" :=
  (sanitizer_spec (String.toList "create_task") (String.toList "channel")
    (String.toList "commentary") (by decide) (by decide) (by decide)
    (by decide) (by decide)).1

/-! ## Claim theorems: worker idempotency and persistence order -/

/-- C1: if the idempotency check reports the message id as already
processed, `handle_webhook` returns 200 with no side effect (backend
unchanged, no store attempt, no LLM call, no send); and for a fresh text
message whose inbound store succeeds, processing the same id twice (with
the duplicate check reachable on the second run) persists exactly one
inbound turn and makes at most one LLM invocation in total, the second run
being a pure 200 acknowledgement. -/
theorem worker_idempotency (env1 env2 : WEnv) (b : Backend) (v : WValue)
    (msg : WMsg) (rest : List WMsg) (tb : String)
    (hs : v.statuses = false) (hm : v.messages = msg :: rest) :
    (checkIdempotency env1 b msg.id = true →
      handleWebhook env1 b v = (b, 200, []))
    ∧ (msg.content = .text tb → tb ≠ "" →
       checkMsgExists b msg.id = false → env1.storeInOk = true →
       env2.idemOk = true →
       countInbound
           (handleWebhook env2 (handleWebhook env1 b v).1 v).1 msg.id = 1
       ∧ countLlm (handleWebhook env1 b v).2.2
           + countLlm (handleWebhook env2 (handleWebhook env1 b v).1 v).2.2
           ≤ 1
       ∧ handleWebhook env2 (handleWebhook env1 b v).1 v
           = ((handleWebhook env1 b v).1, 200, [])) := by
  constructor
  · intro hid
    exact handleWebhook_skip hs hm hid
  · intro hct htb hex hsin hio2
    have hid1 : checkIdempotency env1 b msg.id = false :=
      checkIdempotency_of_not_exists hex
    have hrun1 : handleWebhook env1 b v
        = processText env1 b (wSender v msg) tb msg.id :=
      handleWebhook_text_eq hs hm hid1 hct htb
    have hex1 : checkMsgExists (handleWebhook env1 b v).1 msg.id = true := by
      rw [hrun1]
      exact processText_exists hsin
    have hid2 : checkIdempotency env2 (handleWebhook env1 b v).1 msg.id
        = true := by
      simp [checkIdempotency, hio2, hex1]
    have hrun2 : handleWebhook env2 (handleWebhook env1 b v).1 v
        = ((handleWebhook env1 b v).1, 200, []) :=
      handleWebhook_skip hs hm hid2
    refine ⟨?_, ?_, hrun2⟩
    · rw [hrun2]
      rw [hrun1]
      rw [processText_countInbound hsin, countInbound_zero hex]
    · rw [hrun2, hrun1]
      have h1 := @processText_llm_le env1 b (wSender v msg) tb msg.id
      have h2 : countLlm ([] : List Effect) = 0 := rfl
      show countLlm (processText env1 b (wSender v msg) tb msg.id).2.2
          + countLlm [] ≤ 1
      omega

/-- A normally-behaving environment for the first delivery. -/
def cEnvDup1 : WEnv :=
  ⟨true, fun p => if p = "911234500001" then some 7 else none,
   true, true, fun _ _ => "done", true, true, .rtOk "t", .noOutputFile⟩

/-- Environment for the redelivery: the duplicate check call succeeds. -/
def cEnvDup2 : WEnv :=
  ⟨true, fun p => if p = "911234500001" then some 7 else none,
   true, true, fun _ _ => "done", true, true, .rtOk "t", .noOutputFile⟩

/-- The duplicated inbound text message. -/
def cMsgDup : WMsg := ⟨"wamid.dup", some "911234500001", .text "hi"⟩

/-- Its webhook envelope. -/
def cValueDup : WValue := ⟨false, [cMsgDup], ["911234500001"]⟩

/-- C1 witness: delivering `wamid.dup` twice to an empty backend persists
exactly one inbound turn, makes at most one LLM call, and the second run
acknowledges without effects. -/
theorem worker_idempotency_witness :
    countInbound
        (handleWebhook cEnvDup2
          (handleWebhook cEnvDup1 [] cValueDup).1 cValueDup).1 "wamid.dup"
      = 1
    ∧ countLlm (handleWebhook cEnvDup1 [] cValueDup).2.2
        + countLlm (handleWebhook cEnvDup2
            (handleWebhook cEnvDup1 [] cValueDup).1 cValueDup).2.2 ≤ 1
    ∧ handleWebhook cEnvDup2 (handleWebhook cEnvDup1 [] cValueDup).1
          cValueDup
        = ((handleWebhook cEnvDup1 [] cValueDup).1, 200, []) :=
  (worker_idempotency cEnvDup1 cEnvDup2 [] cValueDup cMsgDup [] "hi"
    rfl rfl).2 rfl (by decide) (by decide) rfl rfl

/-- Environment in which the inbound store's POST fails (network error,
swallowed by `store_message`) while the outbound store succeeds. -/
def cEnvStoreFail : WEnv :=
  ⟨true, fun p => if p = "911234500002" then some 9 else none,
   false, true, fun _ _ => "the reply", true, true, .rtOk "t",
   .noOutputFile⟩

/-- The text message used for the persistence-order claims. -/
def cMsgOrder : WMsg := ⟨"wamid.ord", some "911234500002", .text "hello"⟩

/-- Its webhook envelope. -/
def cValueOrder : WValue := ⟨false, [cMsgOrder], ["911234500002"]⟩

/-- C3 counterexample: the claim says that if the inbound store fails, no
outbound turn is written for that exchange; but `store_message` swallows
the `RequestException` and returns `False`, which `handle_webhook`
ignores, so with the inbound POST failing and the outbound POST
succeeding the backend ends up with the outbound turn and no inbound
turn. -/
theorem worker_order_counterexample :
    countInbound (handleWebhook cEnvStoreFail [] cValueOrder).1 "wamid.ord"
      = 0
    ∧ hasOutbound (handleWebhook cEnvStoreFail [] cValueOrder).1 "wamid.ord"
      = true := by
  constructor
  · rfl
  · rfl

/-- C3 amended: for a registered sender's fresh text message the worker
attempts the inbound store strictly before the outbound store (the trace
order is store-in, LLM, store-out, send), but the outbound write is not
conditioned on the inbound write's success: the outbound turn is persisted
whenever its own POST succeeds, even when the inbound store failed. -/
theorem worker_order_spec (env : WEnv) (b : Backend) (v : WValue)
    (msg : WMsg) (rest : List WMsg) (tb c : String) (cs : List String)
    (uid : Nat) (hs : v.statuses = false) (hm : v.messages = msg :: rest)
    (hct : msg.content = .text tb) (htb : tb ≠ "")
    (hcs : v.contacts = c :: cs) (hu : env.userByPhone c = some uid)
    (hid : checkIdempotency env b msg.id = false) :
    (handleWebhook env b v).2.2
      = [.storeAttempt true (some uid) tb msg.id,
         .llmCall uid tb,
         .storeAttempt false (some uid) (env.llmReply uid tb) msg.id,
         .send (some c) (env.llmReply uid tb)]
    ∧ (env.storeOutOk = true →
        hasOutbound (handleWebhook env b v).1 msg.id = true) := by
  have hsend : wSender v msg = some c := by
    simp [wSender, hcs]
  rw [handleWebhook_text_eq hs hm hid hct htb, hsend]
  constructor
  · unfold processText storeMessage
    simp [hu]
  · intro ho
    unfold processText storeMessage
    by_cases hin : env.storeInOk <;>
      simp [hu, ho, hin, hasOutbound, List.any_append]

/-- C3 amended witness: with the inbound POST failing and the outbound
succeeding, the trace still runs store-in before store-out and the
outbound turn is persisted. -/
theorem worker_order_spec_witness :
    (handleWebhook cEnvStoreFail [] cValueOrder).2.2
      = [.storeAttempt true (some 9) "hello" "wamid.ord",
         .llmCall 9 "hello",
         .storeAttempt false (some 9) "the reply" "wamid.ord",
         .send (some "911234500002") "the reply"]
    ∧ hasOutbound (handleWebhook cEnvStoreFail [] cValueOrder).1 "wamid.ord"
      = true := by
  have h := worker_order_spec cEnvStoreFail [] cValueOrder cMsgOrder []
    "hello" "911234500002" [] 9 rfl rfl rfl (by decide) rfl (by decide)
    (by decide)
  exact ⟨h.1, h.2 rfl⟩

/-- C10 (implicit): the duplicate guard fails open — when the idempotency
HTTP call itself fails, `check_idempotency` returns `False` even though
the message id is already recorded in the backend, and the worker proceeds
with full processing: inbound store attempt, LLM call, outbound store
attempt, and outbound send. -/
theorem worker_fail_open (env : WEnv) (b : Backend) (v : WValue)
    (msg : WMsg) (rest : List WMsg) (tb c : String) (cs : List String)
    (uid : Nat) (hio : env.idemOk = false) (hs : v.statuses = false)
    (hm : v.messages = msg :: rest) (hct : msg.content = .text tb)
    (htb : tb ≠ "") (hcs : v.contacts = c :: cs)
    (hu : env.userByPhone c = some uid)
    (hex : checkMsgExists b msg.id = true) :
    checkIdempotency env b msg.id = false
    ∧ (handleWebhook env b v).2.2
      = [.storeAttempt true (some uid) tb msg.id,
         .llmCall uid tb,
         .storeAttempt false (some uid) (env.llmReply uid tb) msg.id,
         .send (some c) (env.llmReply uid tb)] := by
  have hid : checkIdempotency env b msg.id = false := by
    simp [checkIdempotency, hio]
  refine ⟨hid, ?_⟩
  have hsend : wSender v msg = some c := by
    simp [wSender, hcs]
  rw [handleWebhook_text_eq hs hm hid hct htb, hsend]
  unfold processText storeMessage
  simp [hu]

/-- Environment for the fail-open scenario: the idempotency GET fails. -/
def cEnvFailOpen : WEnv :=
  ⟨false, fun p => if p = "911234500003" then some 4 else none,
   true, true, fun _ _ => "done again", true, true, .rtOk "t",
   .noOutputFile⟩

/-- The already-recorded message redelivered while the backend's
idempotency endpoint is unreachable. -/
def cMsgFailOpen : WMsg := ⟨"wamid.fo", some "911234500003", .text "hey"⟩

/-- Its webhook envelope. -/
def cValueFailOpen : WValue := ⟨false, [cMsgFailOpen], ["911234500003"]⟩

/-- A backend that already holds the inbound turn for `wamid.fo`. -/
def cBackendFailOpen : Backend := [⟨some 4, true, "hey", "wamid.fo"⟩]

/-- C10 witness: with the idempotency call failing, the already-processed
message is fully reprocessed (store, LLM, store, send). -/
theorem worker_fail_open_witness :
    checkIdempotency cEnvFailOpen cBackendFailOpen "wamid.fo" = false
    ∧ (handleWebhook cEnvFailOpen cBackendFailOpen cValueFailOpen).2.2
      = [.storeAttempt true (some 4) "hey" "wamid.fo",
         .llmCall 4 "hey",
         .storeAttempt false (some 4) "done again" "wamid.fo",
         .send (some "911234500003") "done again"] :=
  worker_fail_open cEnvFailOpen cBackendFailOpen cValueFailOpen
    cMsgFailOpen [] "hey" "911234500003" [] 4 rfl rfl rfl rfl (by decide)
    rfl (by decide) (by decide)

/-! ## Claim theorems: transcription engine -/

/-- C9 counterexample: the claim says any error other than the 400/413
fallback case returns (never raises) a string prefixed with `Error:`; but
the realtime `try` catches only `requests.exceptions.HTTPError`, so a
connection error or timeout on the realtime call propagates out of
`transcribe_sarvam_audio` instead of being returned as a string. -/
theorem transcribe_counterexample :
    transcribeSarvamAudio true (.rtExn "connection aborted")
        (.output none none)
      = .error "connection aborted" := by
  rfl

/-- C9 amended: the fallback to the batch path happens exactly when the
low-latency endpoint raises an `HTTPError` with status 400 or 413; the
batch transcript is extracted trying `transcript` then `text`; every other
HTTP-status error on the realtime path and every batch-path failure
returns a string prefixed `Error:`; but a non-HTTP exception on the
realtime path propagates (raises) to `process_audio_sync`, which catches
it and sends an apology; in both failure shapes the caller sends the
failure text to the user and neither stores a turn nor calls the LLM. -/
theorem transcribe_spec :
    (∀ (s : Nat) (m : String) (batch : BatchOutcome), s ≠ 400 → s ≠ 413 →
      transcribeSarvamAudio true (.rtHttpErr s m) batch
        = .ok ("Error: Transcription failed - " ++ m))
    ∧ (∀ (m : String) (tr tx : Option String),
        transcribeSarvamAudio true (.rtHttpErr 400 m) (.output tr tx)
          = .ok (pyOrFields tr tx)
        ∧ transcribeSarvamAudio true (.rtHttpErr 413 m) (.output tr tx)
          = .ok (pyOrFields tr tx))
    ∧ (∀ s : String, s ≠ "" → ∀ tx, pyOrFields (some s) tx = s)
    ∧ (∀ t : String, t ≠ "" → pyOrFields none (some t) = t)
    ∧ (∀ m e : String,
        transcribeSarvamAudio true (.rtHttpErr 400 m) (.noSuccess e)
          = .ok ("Error: Batch failure - " ++ e)
        ∧ transcribeSarvamAudio true (.rtHttpErr 400 m) .noOutputFile
          = .ok "Error: No output JSON found."
        ∧ transcribeSarvamAudio true (.rtHttpErr 400 m) (.batchExn e)
          = .ok ("Error: " ++ e))
    ∧ (∀ (m : String) (batch : BatchOutcome),
        transcribeSarvamAudio true (.rtExn m) batch = .error m)
    ∧ (∀ (env : WEnv) (b : Backend) (p waid t : String) (uid : Nat),
        env.downloadOk = true → env.userByPhone p = some uid →
        transcribeSarvamAudio env.apiKeyOk env.rt env.batch = .ok t →
        strStartsWith t "Error:" = true →
        processAudioSync env b (some p) waid = (b, [.send (some p) t]))
    ∧ (∀ (env : WEnv) (b : Backend) (p waid m : String) (uid : Nat),
        env.downloadOk = true → env.userByPhone p = some uid →
        transcribeSarvamAudio env.apiKeyOk env.rt env.batch = .error m →
        processAudioSync env b (some p) waid
          = (b, [.send (some p) audioApology])) := by
  refine ⟨?_, ?_, ?_, ?_, ?_, ?_, ?_, ?_⟩
  · intro s m batch h400 h413
    simp [transcribeSarvamAudio, h400, h413]
  · intro m tr tx
    constructor
    · rfl
    · rfl
  · intro s hs tx
    simp [pyOrFields, hs]
  · intro t ht
    simp [pyOrFields, ht]
  · intro m e
    exact ⟨rfl, rfl, rfl⟩
  · intro m batch
    rfl
  · intro env b p waid t uid hdl hu htr hst
    simp [processAudioSync, hdl, hu, htr, hst]
  · intro env b p waid m uid hdl hu htr
    simp [processAudioSync, hdl, hu, htr]

/-- Environment in which the realtime call returns a non-fallback HTTP
error (500). -/
def cEnvAudio : WEnv :=
  ⟨true, fun _ => some 3, true, true, fun _ _ => "r", true, true,
   .rtHttpErr 500 "server unavailable", .noOutputFile⟩

/-- Environment in which the realtime call raises a non-HTTP exception. -/
def cEnvAudioExn : WEnv :=
  ⟨true, fun _ => some 3, true, true, fun _ _ => "r", true, true,
   .rtExn "read timeout", .noOutputFile⟩

/-- C9 amended witness: a 500 from the realtime endpoint yields the
`Error:`-prefixed string and the caller forwards it to the user without
storing or invoking the LLM; a raised timeout makes the caller send the
apology. -/
theorem transcribe_spec_witness :
    transcribeSarvamAudio true (.rtHttpErr 500 "boom") .noOutputFile
      = .ok ("Error: Transcription failed - " ++ "boom")
    ∧ processAudioSync cEnvAudio [] (some "911234500004") "wamid.au"
      = ([], [.send (some "911234500004")
          ("Error: Transcription failed - " ++ "server unavailable")])
    ∧ processAudioSync cEnvAudioExn [] (some "911234500004") "wamid.au"
      = ([], [.send (some "911234500004") audioApology]) :=
  ⟨transcribe_spec.1 500 "boom" .noOutputFile (by decide) (by decide),
   transcribe_spec.2.2.2.2.2.2.1 cEnvAudio [] "911234500004" "wamid.au"
     ("Error: Transcription failed - " ++ "server unavailable") 3 rfl rfl
     rfl (by decide),
   transcribe_spec.2.2.2.2.2.2.2 cEnvAudioExn [] "911234500004" "wamid.au"
     "read timeout" 3 rfl rfl rfl⟩

/-! ## Claim theorems: ingress receiver -/

/-- C2 counterexample: the claim says the ingress verifies the HMAC-SHA256
signature and never enqueues a payload with an invalid signature; but the
check in `push_to_queue` is commented out, so a request whose signature
would fail verification (here the HMAC of the body is `00` while the
header claims `ff`) is still enqueued and answered 200. -/
theorem ingress_counterexample :
    validateSignature (fun _ _ => "00") [1] "sha256=ff" (some "secret")
      = false
    ∧ pushToQueue true "payload" "sha256=ff" [1] = ⟨200, ["payload"]⟩ := by
  constructor
  · rfl
  · rfl

/-- C2 amended: the ingress does not verify the transport signature at all
(the call is disabled in the source): the outcome of `push_to_queue` is
independent of the headers and raw body, every accepted (200) call
enqueues exactly one message and a queue failure returns 500 with no
enqueue; moreover `validate_signature` itself accepts whenever the
signature header is absent (it defaults to the empty string, which lacks
the `sha256=` prefix). -/
theorem ingress_spec (sqsOk : Bool) (body h1 h2 : String)
    (r1 r2 : List Nat) (hm : String → List Nat → String)
    (sec : Option String) :
    pushToQueue sqsOk body h1 r1 = pushToQueue sqsOk body h2 r2
    ∧ pushToQueue sqsOk body h1 r1
        = (if sqsOk then ⟨200, [body]⟩ else ⟨500, []⟩)
    ∧ validateSignature hm r1 "" sec = true := by
  refine ⟨rfl, rfl, ?_⟩
  have hpre : strStartsWith "" "sha256=" = false := by decide
  simp [validateSignature, hpre]

end A2
